import Mathlib

/-!
Shallow embedding of the employee-validation core of the
Ex-Employee-Verification-Portal repository.

The embedded code:
* string normalization and the name comparator of
  `src/app/api/verify/validate-employee/route.js` (lines 99-107);
* the attempt-ledger operations of `src/lib/services/smtpService.js`
  (`isVerificationBlocked`, `getVerificationAttempt`,
  `incrementVerificationAttempt`, `resetVerificationAttempt`);
* the `POST` handler of `route.js` from the body-parsing step onwards
  (the authenticated `decoded.id` is a parameter);
* the constants of `src/lib/models/VerificationAttempt.js`.

JavaScript strings are modelled as Lean `String` (a list of characters);
`toLowerCase`/`toUpperCase` are modelled character-wise with
`Char.toLower`/`Char.toUpper` (the ASCII case mapping, which is what the
data in this repository exercises), `trim` drops whitespace characters
from both ends, `replace(/\./g, '')` removes every period and
`split(' ').join('')` removes every space character.  The MongoDB
collection `verification_attempts`, keyed by the unique compound index
`(verifierId, employeeId)`, is modelled as an association list; each
Mongo update (`findOneAndUpdate`, `findByIdAndUpdate`) is one atomic
update of that list.  Timestamps (`new Date()`) are abstract `Nat`
values supplied by the caller.
-/

namespace PortalVerify

/-! ## String normalization (route.js lines 64, 100-107) -/

/-- Character-wise model of JavaScript `toLowerCase` (ASCII range). -/
def jsToLower (s : String) : String :=
  ⟨s.data.map Char.toLower⟩

/-- Character-wise model of JavaScript `toUpperCase` (ASCII range). -/
def jsToUpper (s : String) : String :=
  ⟨s.data.map Char.toUpper⟩

/-- Model of JavaScript `trim()`: remove whitespace from both ends. -/
def jsTrim (s : String) : String :=
  ⟨List.rdropWhile Char.isWhitespace (List.dropWhile Char.isWhitespace s.data)⟩

/-- Model of `replace(/\./g, '')`: remove every period. -/
def removeDots (s : String) : String :=
  ⟨s.data.filter (fun c => !(c == '.'))⟩

/-- Model of `split(' ').join('')`: remove every space character. -/
def removeSpaces (s : String) : String :=
  ⟨s.data.filter (fun c => !(c == ' '))⟩

/-- Model of `name.toLowerCase().trim()` — the normalization applied to both the
submitted and the official name in route.js lines 100-101. -/
def normalizeName (s : String) : String :=
  jsTrim (jsToLower s)

/-- Model of `employeeId.toUpperCase().trim()` — the normalization applied to the
employee id before it is used as a ledger key (route.js line 64 and the
ledger functions in smtpService.js). -/
def normalizeId (s : String) : String :=
  jsTrim (jsToUpper s)

/-- The three-way tolerant name comparison of route.js lines 104-107,
applied to the already-normalized names. -/
def namesMatchNormalized (submittedName officialName : String) : Bool :=
  submittedName == officialName
    || removeDots submittedName == removeDots officialName
    || removeSpaces submittedName == removeSpaces officialName

/-- The full comparator: normalize both names (lines 100-101), then run
the three-way comparison (lines 104-107). -/
def namesMatch (submitted official : String) : Bool :=
  namesMatchNormalized (normalizeName submitted) (normalizeName official)

/-! ## Data model -/

/-- One document of the `verification_attempts` collection
(`src/lib/models/VerificationAttempt.js`). -/
structure AttemptEntry where
  attemptCount : Nat
  isBlocked : Bool
  blockedAt : Option Nat
  lastAttemptAt : Nat
deriving DecidableEq, Repr

/-- The `verification_attempts` collection: an association list keyed by
the unique compound index `(verifierId, employeeId)`. -/
abbrev Ledger : Type := List ((String × String) × AttemptEntry)

/-- The empty collection. -/
def emptyLedger : Ledger := []

/-- Model of `findOne({ verifierId, employeeId })` on the collection. -/
def ledgerFind (st : Ledger) (k : String × String) : Option AttemptEntry :=
  match st with
  | [] => none
  | (k', e) :: rest => if k' = k then some e else ledgerFind rest k

/-- Store an entry under a key (update in place, or append if absent). -/
def ledgerSet (st : Ledger) (k : String × String) (e : AttemptEntry) : Ledger :=
  match st with
  | [] => [(k, e)]
  | (k', e') :: rest =>
      if k' = k then (k, e) :: rest else (k', e') :: ledgerSet rest k e

/-- One canonical employee record, as stored in the `employees`
collection and consumed through `findEmployeeById`. -/
structure Employee where
  employeeId : String
  name : String
deriving DecidableEq, Repr

/-- The function `findEmployeeById` of `src/lib/services/smtpService.js`:
`Employee.findOne({ employeeId })`. -/
def findEmployeeById (db : List Employee) (employeeId : String) : Option Employee :=
  db.find? (fun e => e.employeeId == employeeId)

/-! ## Constants (`src/lib/models/VerificationAttempt.js` lines 9-10, 57-61) -/

def MAX_ATTEMPTS : Nat := 3

def EXIT_TEAM_EMAIL : String := "biswajit.dash@codemate.ai"

def BLOCKED_MESSAGE : String :=
  "Maximum attempts reached. Please reach out to exit team - " ++ EXIT_TEAM_EMAIL

/-! ## Attempt-ledger operations (`src/lib/services/smtpService.js`) -/

/-- The function `isVerificationBlocked` (smtpService.js lines 607-614):
`attempt?.isBlocked || false`. -/
def isVerificationBlocked (st : Ledger) (verifierId employeeId : String) : Bool :=
  match ledgerFind st (verifierId, normalizeId employeeId) with
  | some e => e.isBlocked
  | none => false

/-- The function `getVerificationAttempt` (smtpService.js lines 619-625). -/
def getVerificationAttempt (st : Ledger) (verifierId employeeId : String) :
    Option AttemptEntry :=
  ledgerFind st (verifierId, normalizeId employeeId)

/-- The value returned by `incrementVerificationAttempt` to its caller
(the fields of the document the route handler reads, plus the
`justBlocked` marker; an absent `justBlocked` is the Boolean `false`). -/
structure IncResult where
  attemptCount : Nat
  isBlocked : Bool
  justBlocked : Bool
deriving DecidableEq, Repr

/-- The atomic `findOneAndUpdate` upsert of `incrementVerificationAttempt`
(smtpService.js lines 634-641): find-or-create the document for the pair,
`$inc` its `attemptCount` by 1, `$set` its `lastAttemptAt`, and return the
updated document (`new: true`).  On upsert the schema defaults apply
(`attemptCount: 0`, `isBlocked: false`, no `blockedAt`). -/
def incUpsert (st : Ledger) (k : String × String) (now : Nat) :
    AttemptEntry × Ledger :=
  let updated : AttemptEntry :=
    match ledgerFind st k with
    | some e => { e with attemptCount := e.attemptCount + 1, lastAttemptAt := now }
    | none =>
        { attemptCount := 1, isBlocked := false, blockedAt := none,
          lastAttemptAt := now }
  (updated, ledgerSet st k updated)

/-- The block-persisting write of `incrementVerificationAttempt`
(smtpService.js lines 645-647): `findByIdAndUpdate` of the same document,
`$set { isBlocked: true, blockedAt: now }` (the other fields are
untouched). -/
def blockWrite (st : Ledger) (k : String × String) (now : Nat) : Ledger :=
  match ledgerFind st k with
  | some cur => ledgerSet st k { cur with isBlocked := true, blockedAt := some now }
  | none => st

/-- The function `incrementVerificationAttempt` (smtpService.js lines 630-652): the
atomic upsert-and-increment, followed — when the returned document shows
`attemptCount >= MAX_ATTEMPTS && !isBlocked` — by the separate write that
persists the block; the caller-visible result is then the returned
document with `isBlocked: true, justBlocked: true` spliced in. -/
def incrementVerificationAttempt (st : Ledger) (verifierId employeeId : String)
    (now : Nat) : IncResult × Ledger :=
  let k := (verifierId, normalizeId employeeId)
  let r := incUpsert st k now
  let attempt := r.1
  if MAX_ATTEMPTS ≤ attempt.attemptCount ∧ attempt.isBlocked = false then
    ({ attemptCount := attempt.attemptCount, isBlocked := true, justBlocked := true },
      blockWrite r.2 k now)
  else
    ({ attemptCount := attempt.attemptCount, isBlocked := attempt.isBlocked,
        justBlocked := false }, r.2)

/-- The function `resetVerificationAttempt` (smtpService.js lines 657-664):
`findOneAndUpdate` WITHOUT upsert — `$set { attemptCount: 0,
isBlocked: false, blockedAt: null }`; when no document exists for the
pair, nothing is written. -/
def resetVerificationAttempt (st : Ledger) (verifierId employeeId : String) :
    Ledger :=
  let k := (verifierId, normalizeId employeeId)
  match ledgerFind st k with
  | some e =>
      ledgerSet st k { e with attemptCount := 0, isBlocked := false, blockedAt := none }
  | none => st

/-! ## The HTTP responses of the `POST` handler (route.js) -/

/-- The observable parts of a `NextResponse.json` reply: HTTP status and
the JSON body fields this handler can emit (a field the handler omits is
`none`). -/
structure ApiResponse where
  status : Nat
  success : Bool
  message : String
  isBlocked : Option Bool := none
  remainingAttempts : Option Int := none
deriving DecidableEq, Repr

/-- Route.js lines 57-62: missing `employeeId` or `name`. -/
def requiredFieldsResponse : ApiResponse :=
  { status := 400, success := false, message := "Employee ID and Name are required" }

/-- Route.js lines 68-74: the pair is already blocked. -/
def alreadyBlockedResponse : ApiResponse :=
  { status := 403, success := false, message := BLOCKED_MESSAGE,
    isBlocked := some true }

/-- Route.js lines 84-90: the increment after a failed employee lookup
reported `justBlocked`. -/
def notFoundJustBlockedResponse : ApiResponse :=
  { status := 403, success := false, message := BLOCKED_MESSAGE,
    isBlocked := some true }

/-- Route.js lines 114-120: the increment after a name mismatch reported
`justBlocked`. -/
def mismatchJustBlockedResponse : ApiResponse :=
  { status := 403, success := false, message := BLOCKED_MESSAGE,
    isBlocked := some true }

/-- The interpolated failure message of route.js lines 94 and 124. -/
def mismatchMessage (remaining : Int) : String :=
  "Employee ID and Name do not match. Please check and try again. ("
    ++ toString remaining ++ " attempt"
    ++ (if remaining != 1 then "s" else "") ++ " remaining)"

/-- Route.js lines 92-96: ordinary rejection on the lookup-failed path
(HTTP 404). -/
def notFoundRejectedResponse (remaining : Int) : ApiResponse :=
  { status := 404, success := false, message := mismatchMessage remaining,
    remainingAttempts := some remaining }

/-- Route.js lines 122-126: ordinary rejection on the name-mismatch path
(HTTP 400). -/
def mismatchRejectedResponse (remaining : Int) : ApiResponse :=
  { status := 400, success := false, message := mismatchMessage remaining,
    remainingAttempts := some remaining }

/-- Route.js lines 132-135: successful validation. -/
def acceptedResponse : ApiResponse :=
  { status := 200, success := true, message := "Employee validated successfully" }

/-- The `POST` handler of
`src/app/api/verify/validate-employee/route.js`, from the body-parsing
step (line 52) onwards.  `verifierId` is the authenticated `decoded.id`;
`employeeId` and `name` are the body fields (a missing field is the empty
string, matching the JavaScript falsiness test `!employeeId || !name`);
`db` is the employee collection; `now` the request timestamp. -/
def validateEmployee (db : List Employee) (st : Ledger)
    (verifierId employeeId name : String) (now : Nat) : ApiResponse × Ledger :=
  if employeeId.isEmpty || name.isEmpty then
    (requiredFieldsResponse, st)
  else
    let normalizedEmployeeId := normalizeId employeeId
    if isVerificationBlocked st verifierId normalizedEmployeeId then
      (alreadyBlockedResponse, st)
    else
      match findEmployeeById db normalizedEmployeeId with
      | none =>
          let r := incrementVerificationAttempt st verifierId normalizedEmployeeId now
          let remaining : Int := (MAX_ATTEMPTS : Int) - (r.1.attemptCount : Int)
          if r.1.justBlocked then (notFoundJustBlockedResponse, r.2)
          else (notFoundRejectedResponse remaining, r.2)
      | some employee =>
          let submittedName := normalizeName name
          let officialName := normalizeName employee.name
          if namesMatchNormalized submittedName officialName then
            (acceptedResponse, resetVerificationAttempt st verifierId normalizedEmployeeId)
          else
            let r := incrementVerificationAttempt st verifierId normalizedEmployeeId now
            let remaining : Int := (MAX_ATTEMPTS : Int) - (r.1.attemptCount : Int)
            if r.1.justBlocked then (mismatchJustBlockedResponse, r.2)
            else (mismatchRejectedResponse remaining, r.2)

/-! ## Derived definitions used by the verification -/

/-- Two-sided whitespace trimming at the list level. -/
def trimL (p : α → Bool) (l : List α) : List α :=
  List.rdropWhile p (List.dropWhile p l)

/-- The ledger key of a `(verifierId, employeeId)` pair. -/
def pairKey (vid eid : String) : String × String := (vid, normalizeId eid)

/-- A submission that fails validation: the employee id resolves to no
record, or it resolves but the submitted name does not match. -/
def failsValidation (db : List Employee) (eid name : String) : Bool :=
  match findEmployeeById db (normalizeId eid) with
  | none => true
  | some emp => !(namesMatch name emp.name)

/-- The scenario database for the concrete block runs: one employee. -/
def scenarioDb : List Employee := [⟨"EMP006", "S Sathish"⟩]

/-- One failing attempt of the concrete scenario. -/
def scenarioStep (st : Ledger) (now : Nat) : ApiResponse × Ledger :=
  validateEmployee scenarioDb st "v1" "EMP006" "John Doe" now

def scenarioR1 : ApiResponse × Ledger := scenarioStep emptyLedger 1
def scenarioR2 : ApiResponse × Ledger := scenarioStep scenarioR1.2 2
def scenarioR3 : ApiResponse × Ledger := scenarioStep scenarioR2.2 3
def scenarioR4 : ApiResponse × Ledger := scenarioStep scenarioR3.2 4

/-! ## The Attempt Ledger as a state machine (for the blocked-invariant) -/

/-- The operations the service layer exposes on the ledger:
`incrementVerificationAttempt`, `resetVerificationAttempt`, and the two
read-only operations (`isVerificationBlocked` / `getVerificationAttempt`),
which perform no write. -/
inductive LedgerOp where
  | incrementFailure (vid eid : String) (now : Nat)
  | reset (vid eid : String)
  | read (vid eid : String)

/-- The ledger state after one operation (reads leave it unchanged). -/
def applyOp (st : Ledger) : LedgerOp → Ledger
  | LedgerOp.incrementFailure vid eid now =>
      (incrementVerificationAttempt st vid eid now).2
  | LedgerOp.reset vid eid => resetVerificationAttempt st vid eid
  | LedgerOp.read _ _ => st

/-- The ledger state after a sequence of operations. -/
def applyOps (st : Ledger) (ops : List LedgerOp) : Ledger :=
  ops.foldl applyOp st

/-- Every blocked entry records at least `MAX_ATTEMPTS` failures. -/
def BlockedInvariant (st : Ledger) : Prop :=
  ∀ k e, ledgerFind st k = some e → e.isBlocked = true →
    MAX_ATTEMPTS ≤ e.attemptCount

/-! ## Interleaved executions of `incrementVerificationAttempt` (C6)

One call to `incrementVerificationAttempt` performs two separate awaited
store operations: (phase 0) the atomic `findOneAndUpdate` upsert-and-
increment, which returns the updated document, and (phase 1) — only when
the returned document shows `attemptCount >= MAX_ATTEMPTS && !isBlocked`
— the `findByIdAndUpdate` that persists `isBlocked`/`blockedAt`; the
`justBlocked` signal is exactly that guard, computed from the document
the first operation returned.  Concurrent requests may interleave
between the two operations; each store operation itself is atomic. -/

/-- The per-request state of one in-flight
`incrementVerificationAttempt` call: which store operation runs next,
the document returned by the increment, and the `justBlocked` signal it
will report. -/
structure ReqState where
  phase : Nat
  doc : AttemptEntry
  justBlocked : Bool
deriving DecidableEq, Repr

/-- A request that has not started yet (the `doc` field is meaningful
only from phase 1 on). -/
def initReq : ReqState :=
  { phase := 0,
    doc := { attemptCount := 0, isBlocked := false, blockedAt := none,
             lastAttemptAt := 0 },
    justBlocked := false }

/-- Run the next store operation of one request against the shared
ledger. -/
def concStep (k : String × String) (now : Nat) (g : Ledger) (r : ReqState) :
    Ledger × ReqState :=
  if r.phase = 0 then
    ((incUpsert g k now).2,
      { phase := 1, doc := (incUpsert g k now).1, justBlocked := r.justBlocked })
  else if r.phase = 1 then
    if MAX_ATTEMPTS ≤ r.doc.attemptCount ∧ r.doc.isBlocked = false then
      (blockWrite g k now, { phase := 2, doc := r.doc, justBlocked := true })
    else
      (g, { phase := 2, doc := r.doc, justBlocked := false })
  else (g, r)

/-- The shared ledger together with every in-flight request. -/
structure ConcSys where
  ledger : Ledger
  reqs : List ReqState
deriving Repr

/-- Schedule one step of request `i` (an index with no pending request
is a no-op). -/
def schedStep (k : String × String) (now : Nat) (s : ConcSys) (i : Nat) : ConcSys :=
  match s.reqs.get? i with
  | none => s
  | some r =>
      { ledger := (concStep k now s.ledger r).1,
        reqs := s.reqs.set i (concStep k now s.ledger r).2 }

/-- Run a whole interleaving (a list of request indices). -/
def runSched (k : String × String) (now : Nat) (s : ConcSys) (sched : List Nat) :
    ConcSys :=
  sched.foldl (schedStep k now) s

/-- A system of `n` concurrent failing attempts against an empty ledger. -/
def initialSys (n : Nat) : ConcSys :=
  { ledger := emptyLedger, reqs := List.replicate n initReq }

/-- The number of requests whose increment has already executed. -/
def startedCount (rs : List ReqState) : Nat :=
  rs.countP (fun r => !(r.phase == 0))

/-- The stored failure counter for a key (0 when no entry exists). -/
def effCount (g : Ledger) (k : String × String) : Nat :=
  match ledgerFind g k with
  | some e => e.attemptCount
  | none => 0

/-- Counter exactness: the stored count for the key equals the number of
requests whose increment has executed. -/
def CounterExact (k : String × String) (s : ConcSys) : Prop :=
  effCount s.ledger k = startedCount s.reqs

/-! ## Normalization lemmas -/

/-- The map `Char.toLower` is idempotent. -/
theorem char_toLower_idem (c : Char) : c.toLower.toLower = c.toLower := by
  unfold Char.toLower
  dsimp only
  split
  · rename_i h
    have hv : (c.toNat + 32).isValidChar := Or.inl (by omega)
    have ht : (Char.ofNat (c.toNat + 32)).toNat = c.toNat + 32 := by
      rw [Char.ofNat, dif_pos hv]; rfl
    rw [if_neg (by rw [ht]; omega)]
  · rfl

/-- The map `Char.toUpper` is idempotent. -/
theorem char_toUpper_idem (c : Char) : c.toUpper.toUpper = c.toUpper := by
  unfold Char.toUpper
  dsimp only
  split
  · rename_i h
    have hv : (c.toNat - 32).isValidChar := Or.inl (by omega)
    have ht : (Char.ofNat (c.toNat - 32)).toNat = c.toNat - 32 := by
      rw [Char.ofNat, dif_pos hv]; rfl
    rw [if_neg (by rw [ht]; omega)]
  · rfl

theorem jsTrim_data (s : String) :
    jsTrim s = ⟨trimL Char.isWhitespace s.data⟩ := rfl

/-- Left-trimming an already two-sided-trimmed list does nothing. -/
theorem dropWhile_trimL (p : α → Bool) (l : List α) :
    List.dropWhile p (trimL p l) = trimL p l := by
  rcases h : trimL p l with _ | ⟨a, t⟩
  · simp
  · have hpre : (a :: t) <+: List.dropWhile p l := by
      rw [← h]; exact List.rdropWhile_prefix _ _
    have hne : List.dropWhile p l ≠ [] := hpre.ne_nil (by simp)
    have ha : a = (List.dropWhile p l).head hne := by
      have := hpre.head (by simp)
      simpa using this
    have hpa : p a = false := by
      rw [ha]; exact List.head_dropWhile_not p l hne
    simp [List.dropWhile_cons, hpa]

/-- Two-sided trimming is idempotent. -/
theorem trimL_idem (p : α → Bool) (l : List α) :
    trimL p (trimL p l) = trimL p l := by
  unfold trimL
  rw [show List.dropWhile p (List.rdropWhile p (List.dropWhile p l))
        = List.rdropWhile p (List.dropWhile p l) from dropWhile_trimL p l]
  exact List.rdropWhile_idempotent p _

theorem map_eq_self_of_mem {f : α → α} {l : List α} (h : ∀ a ∈ l, f a = a) :
    l.map f = l := by
  induction l with
  | nil => rfl
  | cons a t ih =>
      simp only [List.map_cons, List.cons.injEq]
      exact ⟨h a (by simp), ih (fun b hb => h b (by simp [hb]))⟩

theorem mem_of_mem_trimL (p : α → Bool) {a : α} {l : List α}
    (h : a ∈ trimL p l) : a ∈ l :=
  (( List.rdropWhile_prefix p _).sublist.subset.trans
    (List.dropWhile_suffix p).sublist.subset) h

/-- The function `normalizeName` is idempotent (lower-case then trim, applied twice,
equals its single application). -/
theorem normalizeName_idem (s : String) :
    normalizeName (normalizeName s) = normalizeName s := by
  show jsTrim (jsToLower (jsTrim (jsToLower s))) = jsTrim (jsToLower s)
  have hmap : (trimL Char.isWhitespace (s.data.map Char.toLower)).map Char.toLower
      = trimL Char.isWhitespace (s.data.map Char.toLower) := by
    apply map_eq_self_of_mem
    intro a ha
    have : a ∈ s.data.map Char.toLower := mem_of_mem_trimL _ ha
    obtain ⟨b, _, rfl⟩ := List.mem_map.mp this
    exact char_toLower_idem b
  show (⟨trimL Char.isWhitespace
      ((trimL Char.isWhitespace (s.data.map Char.toLower)).map Char.toLower)⟩ : String)
    = ⟨trimL Char.isWhitespace (s.data.map Char.toLower)⟩
  rw [hmap, trimL_idem]

/-- The function `normalizeId` is idempotent (upper-case then trim, applied twice,
equals its single application). -/
theorem normalizeId_idem (s : String) :
    normalizeId (normalizeId s) = normalizeId s := by
  show jsTrim (jsToUpper (jsTrim (jsToUpper s))) = jsTrim (jsToUpper s)
  have hmap : (trimL Char.isWhitespace (s.data.map Char.toUpper)).map Char.toUpper
      = trimL Char.isWhitespace (s.data.map Char.toUpper) := by
    apply map_eq_self_of_mem
    intro a ha
    have : a ∈ s.data.map Char.toUpper := mem_of_mem_trimL _ ha
    obtain ⟨b, _, rfl⟩ := List.mem_map.mp this
    exact char_toUpper_idem b
  show (⟨trimL Char.isWhitespace
      ((trimL Char.isWhitespace (s.data.map Char.toUpper)).map Char.toUpper)⟩ : String)
    = ⟨trimL Char.isWhitespace (s.data.map Char.toUpper)⟩
  rw [hmap, trimL_idem]

/-! ## Ledger lemmas -/

theorem ledgerFind_set_same (st : Ledger) (k : String × String) (e : AttemptEntry) :
    ledgerFind (ledgerSet st k e) k = some e := by
  induction st with
  | nil => simp [ledgerSet, ledgerFind]
  | cons kv rest ih =>
      by_cases h : kv.1 = k
      · simp [ledgerSet, ledgerFind, h]
      · simp only [ledgerSet, ledgerFind, h, if_false]
        exact ih

theorem ledgerFind_set_ne (st : Ledger) (k q : String × String) (e : AttemptEntry)
    (h : q ≠ k) : ledgerFind (ledgerSet st k e) q = ledgerFind st q := by
  have hkq : ¬ k = q := fun hh => h hh.symm
  induction st with
  | nil => simp [ledgerSet, ledgerFind, hkq]
  | cons kv rest ih =>
      by_cases hk : kv.1 = k
      · simp only [ledgerSet, hk, if_true, ledgerFind]
        rw [if_neg hkq, if_neg hkq]
      · simp only [ledgerSet, hk, if_false, ledgerFind]
        by_cases hq : kv.1 = q
        · simp [hq]
        · simp [hq, ih]

/-! ## Characterization of `incrementVerificationAttempt` -/

theorem inc_spec_none (st : Ledger) (vid eid : String) (now : Nat)
    (h : ledgerFind st (pairKey vid eid) = none) :
    incrementVerificationAttempt st vid eid now =
      ({ attemptCount := 1, isBlocked := false, justBlocked := false },
        ledgerSet st (pairKey vid eid)
          { attemptCount := 1, isBlocked := false, blockedAt := none,
            lastAttemptAt := now }) := by
  simp only [incrementVerificationAttempt, incUpsert, pairKey] at h ⊢
  rw [h]
  simp [MAX_ATTEMPTS]

theorem inc_spec_small (st : Ledger) (vid eid : String) (now : Nat)
    (e : AttemptEntry)
    (h : ledgerFind st (pairKey vid eid) = some e)
    (hb : e.isBlocked = false) (hc : e.attemptCount + 1 < MAX_ATTEMPTS) :
    incrementVerificationAttempt st vid eid now =
      ({ attemptCount := e.attemptCount + 1, isBlocked := false, justBlocked := false },
        ledgerSet st (pairKey vid eid)
          { e with attemptCount := e.attemptCount + 1, lastAttemptAt := now }) := by
  simp only [incrementVerificationAttempt, incUpsert, pairKey] at h ⊢
  rw [h]
  simp only [MAX_ATTEMPTS] at hc ⊢
  rw [if_neg (by simp; omega)]
  simp [hb]

theorem inc_spec_block (st : Ledger) (vid eid : String) (now : Nat)
    (e : AttemptEntry)
    (h : ledgerFind st (pairKey vid eid) = some e)
    (hb : e.isBlocked = false) (hc : MAX_ATTEMPTS ≤ e.attemptCount + 1) :
    incrementVerificationAttempt st vid eid now =
      ({ attemptCount := e.attemptCount + 1, isBlocked := true, justBlocked := true },
        ledgerSet
          (ledgerSet st (pairKey vid eid)
            { e with attemptCount := e.attemptCount + 1, lastAttemptAt := now })
          (pairKey vid eid)
          { attemptCount := e.attemptCount + 1, isBlocked := true,
            blockedAt := some now, lastAttemptAt := now }) := by
  simp only [incrementVerificationAttempt, incUpsert, pairKey] at h ⊢
  rw [h]
  simp only [MAX_ATTEMPTS] at hc ⊢
  rw [if_pos (by simp [hb]; omega)]
  simp only [blockWrite]
  rw [ledgerFind_set_same]

/-- The increment on an already-blocked entry: the count still goes up,
the guard fails (`!attempt.isBlocked` is false), `justBlocked` is not
reported. -/
theorem inc_spec_already_blocked (st : Ledger) (vid eid : String) (now : Nat)
    (e : AttemptEntry)
    (h : ledgerFind st (pairKey vid eid) = some e)
    (hb : e.isBlocked = true) :
    incrementVerificationAttempt st vid eid now =
      ({ attemptCount := e.attemptCount + 1, isBlocked := true, justBlocked := false },
        ledgerSet st (pairKey vid eid)
          { e with attemptCount := e.attemptCount + 1, lastAttemptAt := now }) := by
  simp only [incrementVerificationAttempt, incUpsert, pairKey] at h ⊢
  rw [h]
  rw [if_neg (by simp [hb])]
  simp [hb]

/-! ## Characterization of the gate (`validateEmployee`) -/

theorem pairKey_normalized (vid eid : String) :
    pairKey vid (normalizeId eid) = pairKey vid eid := by
  simp [pairKey, normalizeId_idem]

theorem isVerificationBlocked_normalized (st : Ledger) (vid eid : String) :
    isVerificationBlocked st vid (normalizeId eid)
      = isVerificationBlocked st vid eid := by
  simp [isVerificationBlocked, normalizeId_idem]

theorem reset_spec_none (st : Ledger) (vid eid : String)
    (h : ledgerFind st (pairKey vid eid) = none) :
    resetVerificationAttempt st vid eid = st := by
  simp only [resetVerificationAttempt, pairKey] at h ⊢
  rw [h]

theorem reset_spec_some (st : Ledger) (vid eid : String) (e : AttemptEntry)
    (h : ledgerFind st (pairKey vid eid) = some e) :
    resetVerificationAttempt st vid eid =
      ledgerSet st (pairKey vid eid)
        { e with attemptCount := 0, isBlocked := false, blockedAt := none } := by
  simp only [resetVerificationAttempt, pairKey] at h ⊢
  rw [h]

/-- A missing (empty) `employeeId` or `name` short-circuits to the
invalid-request reply, leaving the ledger untouched. -/
theorem validate_missing (db : List Employee) (st : Ledger)
    (vid eid name : String) (now : Nat)
    (h : eid.isEmpty = true ∨ name.isEmpty = true) :
    validateEmployee db st vid eid name now = (requiredFieldsResponse, st) := by
  unfold validateEmployee
  rcases h with h | h <;> simp [h]

/-- An already-blocked pair short-circuits to the blocked reply, leaving
the whole ledger unchanged, whatever the submitted name and the employee
store contain. -/
theorem validate_blocked_spec (db : List Employee) (st : Ledger)
    (vid eid name : String) (now : Nat)
    (hne : eid.isEmpty = false) (hnn : name.isEmpty = false)
    (hb : isVerificationBlocked st vid eid = true) :
    validateEmployee db st vid eid name now = (alreadyBlockedResponse, st) := by
  unfold validateEmployee
  simp [hne, hnn, isVerificationBlocked_normalized, hb]

/-- A failing attempt whose increment stays below the maximum: ordinary
rejection carrying the remaining-attempts count, counter bumped to
`c + 1`, still unblocked. -/
theorem validate_fail_reject (db : List Employee) (st : Ledger)
    (vid eid name : String) (now : Nat) (c : Nat)
    (hne : eid.isEmpty = false) (hnn : name.isEmpty = false)
    (hfail : failsValidation db eid name = true)
    (hsmall : c + 1 < MAX_ATTEMPTS)
    (hcur : (ledgerFind st (pairKey vid eid) = none ∧ c = 0)
      ∨ ∃ e, ledgerFind st (pairKey vid eid) = some e
          ∧ e.attemptCount = c ∧ e.isBlocked = false) :
    ((validateEmployee db st vid eid name now).1.success = false
      ∧ (validateEmployee db st vid eid name now).1.isBlocked = none
      ∧ (validateEmployee db st vid eid name now).1.remainingAttempts
          = some ((MAX_ATTEMPTS : Int) - ((c : Int) + 1)))
    ∧ ∃ f, ledgerFind (validateEmployee db st vid eid name now).2 (pairKey vid eid)
          = some f ∧ f.attemptCount = c + 1 ∧ f.isBlocked = false := by
  have hnb : isVerificationBlocked st vid eid = false := by
    rcases hcur with ⟨h0, _⟩ | ⟨e, he, _, hbl⟩
    · simp only [pairKey] at h0
      simp [isVerificationBlocked, h0]
    · simp only [pairKey] at he
      simp [isVerificationBlocked, he, hbl]
  have hinc : incrementVerificationAttempt st vid (normalizeId eid) now =
      ({ attemptCount := c + 1, isBlocked := false, justBlocked := false },
        (incrementVerificationAttempt st vid (normalizeId eid) now).2)
      ∧ ∃ f, ledgerFind (incrementVerificationAttempt st vid (normalizeId eid) now).2
          (pairKey vid eid) = some f ∧ f.attemptCount = c + 1 ∧ f.isBlocked = false := by
    rcases hcur with ⟨h0, hc0⟩ | ⟨e, he, hce, hbl⟩
    · rw [inc_spec_none st vid (normalizeId eid) now (by rw [pairKey_normalized]; exact h0)]
      subst hc0
      refine ⟨rfl, ?_⟩
      rw [pairKey_normalized, ledgerFind_set_same]
      exact ⟨_, rfl, rfl, rfl⟩
    · rw [inc_spec_small st vid (normalizeId eid) now e
        (by rw [pairKey_normalized]; exact he) hbl (by omega)]
      subst hce
      refine ⟨rfl, ?_⟩
      rw [pairKey_normalized, ledgerFind_set_same]
      exact ⟨_, rfl, rfl, hbl⟩
  unfold validateEmployee
  simp only [hne, hnn, Bool.or_self, Bool.false_eq_true, if_false,
    isVerificationBlocked_normalized, hnb]
  unfold failsValidation at hfail
  rcases hfind : findEmployeeById db (normalizeId eid) with _ | emp
  · dsimp only at hfail ⊢
    rw [hinc.1]
    simp only [notFoundRejectedResponse]
    refine ⟨⟨rfl, rfl, by push_cast; ring_nf⟩, ?_⟩
    have := hinc.2
    rw [hinc.1] at this
    exact this
  · rw [hfind] at hfail
    dsimp only at hfail ⊢
    have hfail2 : namesMatch name emp.name = false := by
      revert hfail; cases namesMatch name emp.name <;> simp
    simp only [namesMatch] at hfail2
    rw [hfail2]
    simp only [Bool.false_eq_true, if_false]
    rw [hinc.1]
    simp only [mismatchRejectedResponse]
    refine ⟨⟨rfl, rfl, by push_cast; ring_nf⟩, ?_⟩
    have := hinc.2
    rw [hinc.1] at this
    exact this

/-- A failing attempt whose increment reaches the maximum: the blocked
reply (HTTP 403, blocked message, `isBlocked: true`, no remaining-attempts
field), and the stored entry transitions to blocked. -/
theorem validate_fail_block (db : List Employee) (st : Ledger)
    (vid eid name : String) (now : Nat) (c : Nat)
    (hne : eid.isEmpty = false) (hnn : name.isEmpty = false)
    (hfail : failsValidation db eid name = true)
    (hbig : MAX_ATTEMPTS ≤ c + 1)
    (hcur : ∃ e, ledgerFind st (pairKey vid eid) = some e
        ∧ e.attemptCount = c ∧ e.isBlocked = false) :
    ((validateEmployee db st vid eid name now).1.status = 403
      ∧ (validateEmployee db st vid eid name now).1.success = false
      ∧ (validateEmployee db st vid eid name now).1.message = BLOCKED_MESSAGE
      ∧ (validateEmployee db st vid eid name now).1.isBlocked = some true
      ∧ (validateEmployee db st vid eid name now).1.remainingAttempts = none)
    ∧ ∃ f, ledgerFind (validateEmployee db st vid eid name now).2 (pairKey vid eid)
          = some f ∧ f.attemptCount = c + 1 ∧ f.isBlocked = true
          ∧ f.blockedAt = some now := by
  obtain ⟨e, he, hce, hbl⟩ := hcur
  have hnb : isVerificationBlocked st vid eid = false := by
    simp only [pairKey] at he
    simp [isVerificationBlocked, he, hbl]
  have hinc : incrementVerificationAttempt st vid (normalizeId eid) now =
      ({ attemptCount := c + 1, isBlocked := true, justBlocked := true },
        (incrementVerificationAttempt st vid (normalizeId eid) now).2)
      ∧ ∃ f, ledgerFind (incrementVerificationAttempt st vid (normalizeId eid) now).2
          (pairKey vid eid) = some f ∧ f.attemptCount = c + 1 ∧ f.isBlocked = true
          ∧ f.blockedAt = some now := by
    rw [inc_spec_block st vid (normalizeId eid) now e
      (by rw [pairKey_normalized]; exact he) hbl (by omega)]
    subst hce
    refine ⟨rfl, ?_⟩
    rw [pairKey_normalized, ledgerFind_set_same]
    exact ⟨_, rfl, rfl, rfl, rfl⟩
  unfold validateEmployee
  simp only [hne, hnn, Bool.or_self, Bool.false_eq_true, if_false,
    isVerificationBlocked_normalized, hnb]
  unfold failsValidation at hfail
  rcases hfind : findEmployeeById db (normalizeId eid) with _ | emp
  · dsimp only at hfail ⊢
    rw [hinc.1]
    simp only [notFoundJustBlockedResponse]
    refine ⟨⟨rfl, rfl, rfl, rfl, rfl⟩, ?_⟩
    have := hinc.2
    rw [hinc.1] at this
    exact this
  · rw [hfind] at hfail
    dsimp only at hfail ⊢
    have hfail2 : namesMatch name emp.name = false := by
      revert hfail; cases namesMatch name emp.name <;> simp
    simp only [namesMatch] at hfail2
    rw [hfail2]
    simp only [Bool.false_eq_true, if_false]
    rw [hinc.1]
    simp only [mismatchJustBlockedResponse]
    refine ⟨⟨rfl, rfl, rfl, rfl, rfl⟩, ?_⟩
    have := hinc.2
    rw [hinc.1] at this
    exact this

/-- A successful validation: accepted reply, and the ledger is the reset
of the pair (an existing entry is zeroed and unblocked; when no entry
exists nothing is written). -/
theorem validate_success_spec (db : List Employee) (st : Ledger)
    (vid eid name : String) (now : Nat) (emp : Employee)
    (hne : eid.isEmpty = false) (hnn : name.isEmpty = false)
    (hnb : isVerificationBlocked st vid eid = false)
    (hfind : findEmployeeById db (normalizeId eid) = some emp)
    (hmatch : namesMatch name emp.name = true) :
    validateEmployee db st vid eid name now =
      (acceptedResponse, resetVerificationAttempt st vid (normalizeId eid)) := by
  unfold validateEmployee
  simp only [hne, hnn, Bool.or_self, Bool.false_eq_true, if_false,
    isVerificationBlocked_normalized, hnb]
  rw [hfind]
  dsimp only
  simp only [namesMatch] at hmatch
  rw [hmatch]
  simp

/-! ## Claim theorems -/

/-- C9: the field normalization function (lower-case then trim) is
idempotent: `normalize(x) == normalize(normalize(x))` for every input
string. -/
theorem claim_C9_normalize_idempotent (x : String) :
    normalizeName (normalizeName x) = normalizeName x :=
  normalizeName_idem x

/-- C3: the comparator accepts a submitted name against a canonical name
iff, after lower-casing and trimming both, the strings are equal, or are
equal with all periods removed, or are equal with all (internal) spaces
removed; in particular "S. Sathish" and "SSathish" both match the
canonical "S Sathish". -/
theorem claim_C3_comparator :
    (∀ s c : String, namesMatch s c = true ↔
      (normalizeName s = normalizeName c
        ∨ removeDots (normalizeName s) = removeDots (normalizeName c)
        ∨ removeSpaces (normalizeName s) = removeSpaces (normalizeName c)))
    ∧ namesMatch "S. Sathish" "S Sathish" = true
    ∧ namesMatch "SSathish" "S Sathish" = true := by
  refine ⟨?_, by decide, by decide⟩
  intro s c
  simp [namesMatch, namesMatchNormalized, or_assoc]

/-- C8: a request with a missing (empty) `employeeId` or `name` returns
the invalid-request reply and performs no ledger mutation at all — the
ledger is returned unchanged. -/
theorem claim_C8_missing_fields (db : List Employee) (st : Ledger)
    (vid eid name : String) (now : Nat)
    (h : eid.isEmpty = true ∨ name.isEmpty = true) :
    validateEmployee db st vid eid name now = (requiredFieldsResponse, st) :=
  validate_missing db st vid eid name now h

theorem claim_C8_missing_fields_witness :
    validateEmployee [⟨"EMP006", "S Sathish"⟩]
        [((("v1" : String), ("EMP006" : String)),
          ({ attemptCount := 1, isBlocked := false, blockedAt := none,
              lastAttemptAt := 4 } : AttemptEntry))]
        "v1" "" "John Doe" 9
      = (requiredFieldsResponse,
        [((("v1" : String), ("EMP006" : String)),
          ({ attemptCount := 1, isBlocked := false, blockedAt := none,
              lastAttemptAt := 4 } : AttemptEntry))]) :=
  claim_C8_missing_fields _ _ "v1" "" "John Doe" 9 (Or.inl (by decide))

/-- C2: for every request whose pair is already blocked, the gate
returns the blocked reply immediately and the entire ledger — hence the
pair's entry with all its fields — is unchanged, regardless of the
submitted name or the employee store (no comparison can influence the
outcome). -/
theorem claim_C2_blocked_readonly (db : List Employee) (st : Ledger)
    (vid eid name : String) (now : Nat)
    (hne : eid.isEmpty = false) (hnn : name.isEmpty = false)
    (hb : isVerificationBlocked st vid eid = true) :
    validateEmployee db st vid eid name now = (alreadyBlockedResponse, st) :=
  validate_blocked_spec db st vid eid name now hne hnn hb

theorem claim_C2_blocked_readonly_witness :
    validateEmployee [⟨"EMP006", "S Sathish"⟩]
        [((("v1" : String), ("EMP006" : String)),
          ({ attemptCount := 3, isBlocked := true, blockedAt := some 5,
              lastAttemptAt := 5 } : AttemptEntry))]
        "v1" "EMP006" "S Sathish" 9
      = (alreadyBlockedResponse,
        [((("v1" : String), ("EMP006" : String)),
          ({ attemptCount := 3, isBlocked := true, blockedAt := some 5,
              lastAttemptAt := 5 } : AttemptEntry))]) :=
  claim_C2_blocked_readonly _ _ "v1" "EMP006" "S Sathish" 9
    (by decide) (by decide) (by decide)

/-- C10 (implicit): the reply emitted on the just-blocked transition is
observably identical to the reply for an already-blocked pair — same
HTTP 403 status, same blocked message, same `isBlocked: true` field — on
both the lookup-failed and the name-mismatch paths, so a caller cannot
distinguish newly-blocked from already-blocked; in the concrete
three-failures scenario the third (just-blocked) reply equals the fourth
(already-blocked) reply. -/
theorem claim_C10_justblocked_indistinguishable :
    notFoundJustBlockedResponse = alreadyBlockedResponse
    ∧ mismatchJustBlockedResponse = alreadyBlockedResponse
    ∧ scenarioR3.1 = scenarioR4.1
    ∧ scenarioR3.1.status = 403 ∧ scenarioR3.1.isBlocked = some true
    ∧ scenarioR3.1.message = BLOCKED_MESSAGE := by
  exact ⟨rfl, rfl, by decide, by decide, by decide, by decide⟩

/-- C1: for a pair starting at zero consecutive failures, the first and
second consecutive failed attempts return an ordinary rejection (no
`isBlocked` field) with `remainingAttempts = MAX_ATTEMPTS - k` (2, then
1), and the third consecutive failure returns the just-blocked reply
(HTTP 403, `isBlocked: true`) with no remaining-attempts count. -/
theorem claim_C1_three_strikes (db : List Employee) (st0 : Ledger)
    (vid eid name : String) (now1 now2 now3 : Nat)
    (hne : eid.isEmpty = false) (hnn : name.isEmpty = false)
    (hfail : failsValidation db eid name = true)
    (hstart : ledgerFind st0 (pairKey vid eid) = none
      ∨ ∃ e, ledgerFind st0 (pairKey vid eid) = some e
          ∧ e.attemptCount = 0 ∧ e.isBlocked = false) :
    ((validateEmployee db st0 vid eid name now1).1.success = false
      ∧ (validateEmployee db st0 vid eid name now1).1.isBlocked = none
      ∧ (validateEmployee db st0 vid eid name now1).1.remainingAttempts = some 2)
    ∧ ((validateEmployee db (validateEmployee db st0 vid eid name now1).2
          vid eid name now2).1.success = false
      ∧ (validateEmployee db (validateEmployee db st0 vid eid name now1).2
          vid eid name now2).1.isBlocked = none
      ∧ (validateEmployee db (validateEmployee db st0 vid eid name now1).2
          vid eid name now2).1.remainingAttempts = some 1)
    ∧ ((validateEmployee db
          (validateEmployee db (validateEmployee db st0 vid eid name now1).2
            vid eid name now2).2 vid eid name now3).1.status = 403
      ∧ (validateEmployee db
          (validateEmployee db (validateEmployee db st0 vid eid name now1).2
            vid eid name now2).2 vid eid name now3).1.success = false
      ∧ (validateEmployee db
          (validateEmployee db (validateEmployee db st0 vid eid name now1).2
            vid eid name now2).2 vid eid name now3).1.message = BLOCKED_MESSAGE
      ∧ (validateEmployee db
          (validateEmployee db (validateEmployee db st0 vid eid name now1).2
            vid eid name now2).2 vid eid name now3).1.isBlocked = some true
      ∧ (validateEmployee db
          (validateEmployee db (validateEmployee db st0 vid eid name now1).2
            vid eid name now2).2 vid eid name now3).1.remainingAttempts = none) := by
  have hcur0 : (ledgerFind st0 (pairKey vid eid) = none ∧ 0 = 0)
      ∨ ∃ e, ledgerFind st0 (pairKey vid eid) = some e
          ∧ e.attemptCount = 0 ∧ e.isBlocked = false := by
    rcases hstart with h | h
    · exact Or.inl ⟨h, rfl⟩
    · exact Or.inr h
  have h1 := validate_fail_reject db st0 vid eid name now1 0 hne hnn hfail
    (by simp [MAX_ATTEMPTS]) hcur0
  obtain ⟨f1, hf1, hf1c, hf1b⟩ := h1.2
  have h2 := validate_fail_reject db (validateEmployee db st0 vid eid name now1).2
    vid eid name now2 1 hne hnn hfail (by simp [MAX_ATTEMPTS])
    (Or.inr ⟨f1, hf1, hf1c, hf1b⟩)
  obtain ⟨f2, hf2, hf2c, hf2b⟩ := h2.2
  have h3 := validate_fail_block db
    (validateEmployee db (validateEmployee db st0 vid eid name now1).2
      vid eid name now2).2
    vid eid name now3 2 hne hnn hfail (by simp [MAX_ATTEMPTS])
    ⟨f2, hf2, hf2c, hf2b⟩
  refine ⟨⟨h1.1.1, h1.1.2.1, ?_⟩, ⟨h2.1.1, h2.1.2.1, ?_⟩,
    h3.1.1, h3.1.2.1, h3.1.2.2.1, h3.1.2.2.2.1, h3.1.2.2.2.2⟩
  · rw [h1.1.2.2]
    norm_num [MAX_ATTEMPTS]
  · rw [h2.1.2.2]
    norm_num [MAX_ATTEMPTS]

theorem claim_C1_three_strikes_witness :
    ((validateEmployee scenarioDb emptyLedger "v1" "EMP006" "John Doe" 1).1.success = false
      ∧ (validateEmployee scenarioDb emptyLedger "v1" "EMP006" "John Doe" 1).1.isBlocked = none
      ∧ (validateEmployee scenarioDb emptyLedger "v1" "EMP006" "John Doe" 1).1.remainingAttempts = some 2)
    ∧ ((validateEmployee scenarioDb (validateEmployee scenarioDb emptyLedger "v1" "EMP006" "John Doe" 1).2
          "v1" "EMP006" "John Doe" 2).1.success = false
      ∧ (validateEmployee scenarioDb (validateEmployee scenarioDb emptyLedger "v1" "EMP006" "John Doe" 1).2
          "v1" "EMP006" "John Doe" 2).1.isBlocked = none
      ∧ (validateEmployee scenarioDb (validateEmployee scenarioDb emptyLedger "v1" "EMP006" "John Doe" 1).2
          "v1" "EMP006" "John Doe" 2).1.remainingAttempts = some 1)
    ∧ ((validateEmployee scenarioDb
          (validateEmployee scenarioDb (validateEmployee scenarioDb emptyLedger "v1" "EMP006" "John Doe" 1).2
            "v1" "EMP006" "John Doe" 2).2 "v1" "EMP006" "John Doe" 3).1.status = 403
      ∧ (validateEmployee scenarioDb
          (validateEmployee scenarioDb (validateEmployee scenarioDb emptyLedger "v1" "EMP006" "John Doe" 1).2
            "v1" "EMP006" "John Doe" 2).2 "v1" "EMP006" "John Doe" 3).1.success = false
      ∧ (validateEmployee scenarioDb
          (validateEmployee scenarioDb (validateEmployee scenarioDb emptyLedger "v1" "EMP006" "John Doe" 1).2
            "v1" "EMP006" "John Doe" 2).2 "v1" "EMP006" "John Doe" 3).1.message = BLOCKED_MESSAGE
      ∧ (validateEmployee scenarioDb
          (validateEmployee scenarioDb (validateEmployee scenarioDb emptyLedger "v1" "EMP006" "John Doe" 1).2
            "v1" "EMP006" "John Doe" 2).2 "v1" "EMP006" "John Doe" 3).1.isBlocked = some true
      ∧ (validateEmployee scenarioDb
          (validateEmployee scenarioDb (validateEmployee scenarioDb emptyLedger "v1" "EMP006" "John Doe" 1).2
            "v1" "EMP006" "John Doe" 2).2 "v1" "EMP006" "John Doe" 3).1.remainingAttempts = none) :=
  claim_C1_three_strikes scenarioDb emptyLedger "v1" "EMP006" "John Doe" 1 2 3
    (by decide) (by decide) (by decide) (Or.inl (by decide))

/-- C5 as stated is false on the code: `resetVerificationAttempt` is a
`findOneAndUpdate` WITHOUT upsert, so when the pair has no ledger entry a
successful validation creates none — there is no entry with
`attemptCount = 0`, contradicting the claim that a matching attempt
"results in a ledger entry with consecutiveFailures = 0 and
blocked = false". -/
theorem claim_C5_counterexample :
    (validateEmployee scenarioDb emptyLedger "v1" "EMP006" "s. sathish" 1).1
        = acceptedResponse
    ∧ ¬ ∃ f, ledgerFind
        (validateEmployee scenarioDb emptyLedger "v1" "EMP006" "s. sathish" 1).2
        (pairKey "v1" "EMP006") = some f
          ∧ f.attemptCount = 0 ∧ f.isBlocked = false := by
  constructor
  · decide
  · intro hf
    obtain ⟨f, hfind, _, _⟩ := hf
    have : ledgerFind
        (validateEmployee scenarioDb emptyLedger "v1" "EMP006" "s. sathish" 1).2
        (pairKey "v1" "EMP006") = none := by decide
    rw [this] at hfind
    exact Option.noConfusion hfind

/-- C5 amended: a matching attempt returns Accepted and leaves the pair
unblocked with an effective failure count of zero — an existing entry is
reset to `attemptCount = 0, isBlocked = false, blockedAt = null` (its
`lastAttemptAt` is not touched by the reset), while when no entry exists
none is created — and a failure following the success counts from 1, not
from the pre-reset value. -/
theorem claim_C5_success_resets (db : List Employee) (st : Ledger)
    (vid eid name : String) (now now2 : Nat) (emp : Employee)
    (hne : eid.isEmpty = false) (hnn : name.isEmpty = false)
    (hnb : isVerificationBlocked st vid eid = false)
    (hfind : findEmployeeById db (normalizeId eid) = some emp)
    (hmatch : namesMatch name emp.name = true) :
    (validateEmployee db st vid eid name now).1 = acceptedResponse
    ∧ isVerificationBlocked (validateEmployee db st vid eid name now).2 vid eid = false
    ∧ (∀ e, ledgerFind st (pairKey vid eid) = some e →
        ledgerFind (validateEmployee db st vid eid name now).2 (pairKey vid eid)
          = some { attemptCount := 0, isBlocked := false, blockedAt := none,
                   lastAttemptAt := e.lastAttemptAt })
    ∧ (ledgerFind st (pairKey vid eid) = none →
        ledgerFind (validateEmployee db st vid eid name now).2 (pairKey vid eid) = none)
    ∧ (incrementVerificationAttempt
        (validateEmployee db st vid eid name now).2 vid eid now2).1.attemptCount = 1 := by
  rw [validate_success_spec db st vid eid name now emp hne hnn hnb hfind hmatch]
  dsimp only
  have hledger : ∀ e, ledgerFind st (pairKey vid eid) = some e →
      ledgerFind (resetVerificationAttempt st vid (normalizeId eid)) (pairKey vid eid)
        = some { attemptCount := 0, isBlocked := false, blockedAt := none,
                 lastAttemptAt := e.lastAttemptAt } := by
    intro e he
    rw [reset_spec_some st vid (normalizeId eid) e (by rw [pairKey_normalized]; exact he)]
    rw [pairKey_normalized, ledgerFind_set_same]
  have hnone : ledgerFind st (pairKey vid eid) = none →
      ledgerFind (resetVerificationAttempt st vid (normalizeId eid)) (pairKey vid eid)
        = none := by
    intro he
    rw [reset_spec_none st vid (normalizeId eid) (by rw [pairKey_normalized]; exact he)]
    exact he
  refine ⟨rfl, ?_, hledger, hnone, ?_⟩
  · rcases he : ledgerFind st (pairKey vid eid) with _ | e
    · have := hnone he
      simp only [isVerificationBlocked]
      simp only [pairKey] at this
      rw [this]
    · have := hledger e he
      simp only [isVerificationBlocked]
      simp only [pairKey] at this
      rw [this]
  · rcases he : ledgerFind st (pairKey vid eid) with _ | e
    · rw [inc_spec_none _ vid eid now2 (hnone he)]
    · rw [inc_spec_small _ vid eid now2 _ (hledger e he) rfl
        (by simp [MAX_ATTEMPTS])]

theorem claim_C5_success_resets_witness :
    (validateEmployee scenarioDb
        [((("v1" : String), ("EMP006" : String)),
          ({ attemptCount := 2, isBlocked := false, blockedAt := none,
              lastAttemptAt := 4 } : AttemptEntry))]
        "v1" "EMP006" "s. sathish" 9).1 = acceptedResponse
    ∧ isVerificationBlocked (validateEmployee scenarioDb
        [((("v1" : String), ("EMP006" : String)),
          ({ attemptCount := 2, isBlocked := false, blockedAt := none,
              lastAttemptAt := 4 } : AttemptEntry))]
        "v1" "EMP006" "s. sathish" 9).2 "v1" "EMP006" = false
    ∧ (∀ e, ledgerFind
        [((("v1" : String), ("EMP006" : String)),
          ({ attemptCount := 2, isBlocked := false, blockedAt := none,
              lastAttemptAt := 4 } : AttemptEntry))] (pairKey "v1" "EMP006") = some e →
        ledgerFind (validateEmployee scenarioDb
          [((("v1" : String), ("EMP006" : String)),
            ({ attemptCount := 2, isBlocked := false, blockedAt := none,
                lastAttemptAt := 4 } : AttemptEntry))]
          "v1" "EMP006" "s. sathish" 9).2 (pairKey "v1" "EMP006")
          = some { attemptCount := 0, isBlocked := false, blockedAt := none,
                   lastAttemptAt := e.lastAttemptAt })
    ∧ (ledgerFind
        [((("v1" : String), ("EMP006" : String)),
          ({ attemptCount := 2, isBlocked := false, blockedAt := none,
              lastAttemptAt := 4 } : AttemptEntry))] (pairKey "v1" "EMP006") = none →
        ledgerFind (validateEmployee scenarioDb
          [((("v1" : String), ("EMP006" : String)),
            ({ attemptCount := 2, isBlocked := false, blockedAt := none,
                lastAttemptAt := 4 } : AttemptEntry))]
          "v1" "EMP006" "s. sathish" 9).2 (pairKey "v1" "EMP006") = none)
    ∧ (incrementVerificationAttempt (validateEmployee scenarioDb
          [((("v1" : String), ("EMP006" : String)),
            ({ attemptCount := 2, isBlocked := false, blockedAt := none,
                lastAttemptAt := 4 } : AttemptEntry))]
          "v1" "EMP006" "s. sathish" 9).2 "v1" "EMP006" 11).1.attemptCount = 1 :=
  claim_C5_success_resets scenarioDb
    [((("v1" : String), ("EMP006" : String)),
      ({ attemptCount := 2, isBlocked := false, blockedAt := none,
          lastAttemptAt := 4 } : AttemptEntry))]
    "v1" "EMP006" "s. sathish" 9 11 ⟨"EMP006", "S Sathish"⟩
    (by decide) (by decide) (by decide) (by decide) (by decide)

/-- A failing attempt on a pair with no prior entry, employee id
unresolved: full reply and ledger characterization. -/
theorem validate_notfound_fresh (db : List Employee) (st : Ledger)
    (vid eid name : String) (now : Nat)
    (hne : eid.isEmpty = false) (hnn : name.isEmpty = false)
    (h0 : ledgerFind st (pairKey vid eid) = none)
    (hfind : findEmployeeById db (normalizeId eid) = none) :
    validateEmployee db st vid eid name now
      = (notFoundRejectedResponse 2,
        ledgerSet st (pairKey vid eid)
          { attemptCount := 1, isBlocked := false, blockedAt := none,
            lastAttemptAt := now }) := by
  have hnb : isVerificationBlocked st vid eid = false := by
    simp only [pairKey] at h0
    simp [isVerificationBlocked, h0]
  unfold validateEmployee
  simp only [hne, hnn, Bool.or_self, Bool.false_eq_true, if_false,
    isVerificationBlocked_normalized, hnb]
  rw [hfind]
  dsimp only
  rw [inc_spec_none st vid (normalizeId eid) now (by rw [pairKey_normalized]; exact h0)]
  rw [pairKey_normalized]
  norm_num [MAX_ATTEMPTS]

/-- A failing attempt on a pair with no prior entry, employee id resolved
but name mismatched: full reply and ledger characterization. -/
theorem validate_mismatch_fresh (db : List Employee) (st : Ledger)
    (vid eid name : String) (now : Nat) (emp : Employee)
    (hne : eid.isEmpty = false) (hnn : name.isEmpty = false)
    (h0 : ledgerFind st (pairKey vid eid) = none)
    (hfind : findEmployeeById db (normalizeId eid) = some emp)
    (hmm : namesMatch name emp.name = false) :
    validateEmployee db st vid eid name now
      = (mismatchRejectedResponse 2,
        ledgerSet st (pairKey vid eid)
          { attemptCount := 1, isBlocked := false, blockedAt := none,
            lastAttemptAt := now }) := by
  have hnb : isVerificationBlocked st vid eid = false := by
    simp only [pairKey] at h0
    simp [isVerificationBlocked, h0]
  unfold validateEmployee
  simp only [hne, hnn, Bool.or_self, Bool.false_eq_true, if_false,
    isVerificationBlocked_normalized, hnb]
  rw [hfind]
  dsimp only
  simp only [namesMatch] at hmm
  rw [hmm]
  simp only [Bool.false_eq_true, if_false]
  rw [inc_spec_none st vid (normalizeId eid) now (by rw [pairKey_normalized]; exact h0)]
  rw [pairKey_normalized]
  norm_num [MAX_ATTEMPTS]

/-- C7 as stated is false on the code: an unresolved subject id is
answered with HTTP 404 while a resolved-but-mismatched submission is
answered with HTTP 400 — the two failure causes share the message,
remaining-count and ledger effect, but the transport status
distinguishes them. -/
theorem claim_C7_counterexample :
    (validateEmployee scenarioDb emptyLedger "v1" "EMP999" "John Doe" 1).1.status = 404
    ∧ (validateEmployee scenarioDb emptyLedger "v1" "EMP006" "John Doe" 1).1.status = 400
    ∧ (validateEmployee scenarioDb emptyLedger "v1" "EMP999" "John Doe" 1).1.status
        ≠ (validateEmployee scenarioDb emptyLedger "v1" "EMP006" "John Doe" 1).1.status
    ∧ (validateEmployee scenarioDb emptyLedger "v1" "EMP999" "John Doe" 1).1.message
        = (validateEmployee scenarioDb emptyLedger "v1" "EMP006" "John Doe" 1).1.message := by
  exact ⟨by decide, by decide, by decide, by decide⟩

/-- C7 amended: for a fresh pair, a not-found failure and a mismatch
failure are identical in success flag, message, `isBlocked` field,
remaining-attempts count and ledger effect (each creates the same
`attemptCount = 1` entry under its own pair), but NOT in transport
status: not-found replies 404 where mismatch replies 400. -/
theorem claim_C7_failure_paths (db : List Employee) (st : Ledger)
    (vid eidA eidB name : String) (now : Nat) (emp : Employee)
    (hneA : eidA.isEmpty = false) (hneB : eidB.isEmpty = false)
    (hnn : name.isEmpty = false)
    (hA0 : ledgerFind st (pairKey vid eidA) = none)
    (hB0 : ledgerFind st (pairKey vid eidB) = none)
    (hfindA : findEmployeeById db (normalizeId eidA) = none)
    (hfindB : findEmployeeById db (normalizeId eidB) = some emp)
    (hmm : namesMatch name emp.name = false) :
    (validateEmployee db st vid eidA name now).1.status = 404
    ∧ (validateEmployee db st vid eidB name now).1.status = 400
    ∧ (validateEmployee db st vid eidA name now).1.success
        = (validateEmployee db st vid eidB name now).1.success
    ∧ (validateEmployee db st vid eidA name now).1.message
        = (validateEmployee db st vid eidB name now).1.message
    ∧ (validateEmployee db st vid eidA name now).1.isBlocked
        = (validateEmployee db st vid eidB name now).1.isBlocked
    ∧ (validateEmployee db st vid eidA name now).1.remainingAttempts
        = (validateEmployee db st vid eidB name now).1.remainingAttempts
    ∧ ledgerFind (validateEmployee db st vid eidA name now).2 (pairKey vid eidA)
        = ledgerFind (validateEmployee db st vid eidB name now).2 (pairKey vid eidB) := by
  rw [validate_notfound_fresh db st vid eidA name now hneA hnn hA0 hfindA]
  rw [validate_mismatch_fresh db st vid eidB name now emp hneB hnn hB0 hfindB hmm]
  refine ⟨rfl, rfl, rfl, rfl, rfl, rfl, ?_⟩
  rw [ledgerFind_set_same, ledgerFind_set_same]

theorem claim_C7_failure_paths_witness :
    (validateEmployee scenarioDb emptyLedger "v1" "EMP999" "John Doe" 1).1.status = 404
    ∧ (validateEmployee scenarioDb emptyLedger "v1" "EMP006" "John Doe" 1).1.status = 400
    ∧ (validateEmployee scenarioDb emptyLedger "v1" "EMP999" "John Doe" 1).1.success
        = (validateEmployee scenarioDb emptyLedger "v1" "EMP006" "John Doe" 1).1.success
    ∧ (validateEmployee scenarioDb emptyLedger "v1" "EMP999" "John Doe" 1).1.message
        = (validateEmployee scenarioDb emptyLedger "v1" "EMP006" "John Doe" 1).1.message
    ∧ (validateEmployee scenarioDb emptyLedger "v1" "EMP999" "John Doe" 1).1.isBlocked
        = (validateEmployee scenarioDb emptyLedger "v1" "EMP006" "John Doe" 1).1.isBlocked
    ∧ (validateEmployee scenarioDb emptyLedger "v1" "EMP999" "John Doe" 1).1.remainingAttempts
        = (validateEmployee scenarioDb emptyLedger "v1" "EMP006" "John Doe" 1).1.remainingAttempts
    ∧ ledgerFind (validateEmployee scenarioDb emptyLedger "v1" "EMP999" "John Doe" 1).2
          (pairKey "v1" "EMP999")
        = ledgerFind (validateEmployee scenarioDb emptyLedger "v1" "EMP006" "John Doe" 1).2
          (pairKey "v1" "EMP006") :=
  claim_C7_failure_paths scenarioDb emptyLedger "v1" "EMP999" "EMP006" "John Doe" 1
    ⟨"EMP006", "S Sathish"⟩ (by decide) (by decide) (by decide) (by decide)
    (by decide) (by decide) (by decide) (by decide)

theorem inc_preserves_invariant (st : Ledger) (vid eid : String) (now : Nat)
    (h : BlockedInvariant st) :
    BlockedInvariant (incrementVerificationAttempt st vid eid now).2 := by
  intro k e hfind hblk
  rcases hcur : ledgerFind st (pairKey vid eid) with _ | e0
  · rw [inc_spec_none st vid eid now hcur] at hfind
    by_cases hk : k = pairKey vid eid
    · subst hk
      rw [ledgerFind_set_same] at hfind
      cases hfind
      simp at hblk
    · rw [ledgerFind_set_ne _ _ _ _ hk] at hfind
      exact h k e hfind hblk
  · by_cases hb0 : e0.isBlocked = true
    · rw [inc_spec_already_blocked st vid eid now e0 hcur hb0] at hfind
      by_cases hk : k = pairKey vid eid
      · subst hk
        rw [ledgerFind_set_same] at hfind
        cases hfind
        have := h _ e0 hcur hb0
        simpa using Nat.le_succ_of_le this
      · rw [ledgerFind_set_ne _ _ _ _ hk] at hfind
        exact h k e hfind hblk
    · have hb0f : e0.isBlocked = false := by
        revert hb0; cases e0.isBlocked <;> simp
      by_cases hbig : MAX_ATTEMPTS ≤ e0.attemptCount + 1
      · rw [inc_spec_block st vid eid now e0 hcur hb0f hbig] at hfind
        by_cases hk : k = pairKey vid eid
        · subst hk
          rw [ledgerFind_set_same] at hfind
          cases hfind
          exact hbig
        · rw [ledgerFind_set_ne _ _ _ _ hk, ledgerFind_set_ne _ _ _ _ hk] at hfind
          exact h k e hfind hblk
      · rw [inc_spec_small st vid eid now e0 hcur hb0f (by omega)] at hfind
        by_cases hk : k = pairKey vid eid
        · subst hk
          rw [ledgerFind_set_same] at hfind
          cases hfind
          simp at hblk
          exact absurd hblk hb0
        · rw [ledgerFind_set_ne _ _ _ _ hk] at hfind
          exact h k e hfind hblk

theorem reset_preserves_invariant (st : Ledger) (vid eid : String)
    (h : BlockedInvariant st) :
    BlockedInvariant (resetVerificationAttempt st vid eid) := by
  intro k e hfind hblk
  rcases hcur : ledgerFind st (pairKey vid eid) with _ | e0
  · rw [reset_spec_none st vid eid hcur] at hfind
    exact h k e hfind hblk
  · rw [reset_spec_some st vid eid e0 hcur] at hfind
    by_cases hk : k = pairKey vid eid
    · subst hk
      rw [ledgerFind_set_same] at hfind
      cases hfind
      simp at hblk
    · rw [ledgerFind_set_ne _ _ _ _ hk] at hfind
      exact h k e hfind hblk

theorem applyOps_preserves_invariant (ops : List LedgerOp) (st : Ledger)
    (h : BlockedInvariant st) : BlockedInvariant (applyOps st ops) := by
  induction ops generalizing st with
  | nil => exact h
  | cons op rest ih =>
      refine ih (applyOp st op) ?_
      cases op with
      | incrementFailure vid eid now => exact inc_preserves_invariant st vid eid now h
      | reset vid eid => exact reset_preserves_invariant st vid eid h
      | read vid eid => exact h

/-- C4: in every state reachable from the empty ledger by any sequence
of ledger operations (incrementFailure, reset, read), every entry with
`isBlocked = true` has `attemptCount >= MAX_ATTEMPTS` (3). -/
theorem claim_C4_blocked_invariant (ops : List LedgerOp)
    (k : String × String) (e : AttemptEntry)
    (hfind : ledgerFind (applyOps emptyLedger ops) k = some e)
    (hblk : e.isBlocked = true) :
    MAX_ATTEMPTS ≤ e.attemptCount :=
  applyOps_preserves_invariant ops emptyLedger
    (fun _ _ hf _ => by cases hf) k e hfind hblk

theorem claim_C4_blocked_invariant_witness :
    MAX_ATTEMPTS ≤
      (AttemptEntry.mk 3 true (some 0) 0).attemptCount :=
  claim_C4_blocked_invariant
    [LedgerOp.incrementFailure "v1" "E1" 0, LedgerOp.incrementFailure "v1" "E1" 0,
      LedgerOp.incrementFailure "v1" "E1" 0]
    (pairKey "v1" "E1") (AttemptEntry.mk 3 true (some 0) 0)
    (by decide) (by decide)

/-- C6 as stated is false on the code: in a complete interleaved
execution of 4 concurrent failing attempts on the same pair, TWO of the
four calls observe `justBlocked` — the block flag is persisted by a
second, separate write, and the guard is evaluated against each call's
own pre-block snapshot — so the JustBlocked transition is not observed
by exactly one attempt. -/
theorem claim_C6_counterexample :
    ((runSched ("v1", "EMP006") 0 (initialSys 4)
        [0, 1, 2, 3, 2, 3, 0, 1]).reqs.countP (fun r => r.justBlocked)) = 2
    ∧ ((runSched ("v1", "EMP006") 0 (initialSys 4)
        [0, 1, 2, 3, 2, 3, 0, 1]).reqs.all (fun r => r.phase == 2)) = true := by
  exact ⟨by decide, by decide⟩

theorem countP_set_balance {α : Type} (p : α → Bool) (rs : List α) (i : Nat)
    (r q : α) (h : rs.get? i = some r) :
    (rs.set i q).countP p + (if p r then 1 else 0)
      = rs.countP p + (if p q then 1 else 0) := by
  induction rs generalizing i with
  | nil => cases h
  | cons a t ih =>
      cases i with
      | zero =>
          have ha : a = r := by
            have : some a = some r := h
            exact Option.some.inj this
          subst ha
          simp only [List.set, List.countP_cons]
          omega
      | succ n =>
          have hn : t.get? n = some r := h
          simp only [List.set, List.countP_cons]
          have := ih n hn
          omega

theorem effCount_incUpsert (g : Ledger) (k : String × String) (now : Nat) :
    effCount (incUpsert g k now).2 k = effCount g k + 1
      ∧ (incUpsert g k now).1.attemptCount = effCount g k + 1 := by
  unfold incUpsert effCount
  rcases h : ledgerFind g k with _ | e <;>
    · dsimp only
      rw [ledgerFind_set_same]
      exact ⟨rfl, rfl⟩

theorem effCount_blockWrite (g : Ledger) (k : String × String) (now : Nat) :
    effCount (blockWrite g k now) k = effCount g k := by
  unfold blockWrite effCount
  rcases h : ledgerFind g k with _ | e
  · dsimp only
    rw [h]
  · dsimp only
    rw [ledgerFind_set_same]

theorem schedStep_counterExact (k : String × String) (now : Nat)
    (s : ConcSys) (i : Nat) (h : CounterExact k s) :
    CounterExact k (schedStep k now s i) := by
  unfold schedStep
  rcases hg : s.reqs.get? i with _ | r
  · exact h
  · unfold CounterExact at h ⊢
    unfold startedCount at h ⊢
    dsimp only
    by_cases h0 : r.phase = 0
    · have hbal := countP_set_balance (fun x => !(x.phase == 0)) s.reqs i r
        (concStep k now s.ledger r).2 hg
      unfold concStep at hbal ⊢
      rw [if_pos h0] at hbal ⊢
      dsimp only at hbal ⊢
      simp only [h0] at hbal
      norm_num at hbal
      rw [(effCount_incUpsert s.ledger k now).1]
      omega
    · by_cases h1 : r.phase = 1
      · have hbal := countP_set_balance (fun x => !(x.phase == 0)) s.reqs i r
          (concStep k now s.ledger r).2 hg
        unfold concStep at hbal ⊢
        rw [if_neg h0, if_pos h1] at hbal ⊢
        by_cases hguard : MAX_ATTEMPTS ≤ r.doc.attemptCount ∧ r.doc.isBlocked = false
        · rw [if_pos hguard] at hbal ⊢
          dsimp only at hbal ⊢
          simp only [h1] at hbal
          norm_num at hbal
          rw [effCount_blockWrite]
          omega
        · rw [if_neg hguard] at hbal ⊢
          dsimp only at hbal ⊢
          simp only [h1] at hbal
          norm_num at hbal
          omega
      · have hbal := countP_set_balance (fun x => !(x.phase == 0)) s.reqs i r
          (concStep k now s.ledger r).2 hg
        unfold concStep at hbal ⊢
        rw [if_neg h0, if_neg h1] at hbal ⊢
        dsimp only at hbal ⊢
        omega

theorem runSched_counterExact (k : String × String) (now : Nat)
    (sched : List Nat) (s : ConcSys) (h : CounterExact k s) :
    CounterExact k (runSched k now s sched) := by
  induction sched generalizing s with
  | nil => exact h
  | cons i rest ih =>
      exact ih (schedStep k now s i) (schedStep_counterExact k now s i h)

theorem startedCount_replicate (n : Nat) :
    startedCount (List.replicate n initReq) = 0 := by
  induction n with
  | zero => rfl
  | succ m ih =>
      unfold startedCount at ih ⊢
      rw [List.replicate_succ, List.countP_cons]
      simp only [initReq]
      norm_num


/-- C6 amended: the increment itself is one atomic upsert-and-increment,
so under EVERY interleaving of any number of concurrent failing attempts
on the same pair the stored counter equals exactly the number of
increments that have executed — it never under- or double-counts; the
`justBlocked` signal, however, is derived from each call's own returned
snapshot while the block flag is persisted by a separate second write,
so only a serialized execution observes exactly one JustBlocked (the
interleaved run of the counterexample observes two). -/
theorem claim_C6_counter_exact :
    (∀ (k : String × String) (now n : Nat) (sched : List Nat),
      effCount (runSched k now (initialSys n) sched).ledger k
        = startedCount (runSched k now (initialSys n) sched).reqs)
    ∧ ((runSched ("v1", "EMP006") 0 (initialSys 4)
        [0, 0, 1, 1, 2, 2, 3, 3]).reqs.countP (fun r => r.justBlocked)) = 1 := by
  constructor
  · intro k now n sched
    refine runSched_counterExact k now sched (initialSys n) ?_
    unfold CounterExact initialSys
    dsimp only
    rw [startedCount_replicate]
    rfl
  · decide

end PortalVerify
